import Mathlib

/-!
Verification model of the Squawk Box Cardputer momentum-signal engine
(`src/squawkbox_cardputer.ino`, v9.9 section).  The C++ source is embedded
shallowly: `float` becomes `ℚ` (exact arithmetic stands in for IEEE floats),
`unsigned long` (`millis()`) becomes `ℕ` with explicit 32-bit wraparound in
`elapsedMs`, the mutable globals become one explicit `EngineState` record,
and the functions `closePosition` / `openLong` / `openShort` / `logEvent` /
`getSmartInterval` / `updateSignalLogic` / `triggerBuySignal` /
`triggerSellSignal` / `processPrice` / `fetchQuote` / `updateBuzzer` and the
chop-limit mutations of `handleKeyboard` / `handleWebTraffic` are translated
branch for branch.  Display, serial, speaker-tone and NVS side effects carry
no engine state and are dropped (the speaker commands of `updateBuzzer` are
kept as an explicit emission list so that mute behaviour is observable).
-/

namespace Squawk

/-- `enum SignalState { IDLE, TRIGGERED, CONFIRMED }` (CONFIRMED is declared
in the source but never assigned). -/
inductive SignalState where
  | IDLE
  | TRIGGERED
  | CONFIRMED
deriving DecidableEq, Repr

/-- `enum PositionState { POS_NONE, POS_LONG, POS_SHORT }`. -/
inductive PositionState where
  | POS_NONE
  | POS_LONG
  | POS_SHORT
deriving DecidableEq, Repr

/-- `enum BuzzerState { BZ_IDLE, BZ_BULL, BZ_BEAR, BZ_STUTTER }`. -/
inductive BuzzerState where
  | BZ_IDLE
  | BZ_BULL
  | BZ_BEAR
  | BZ_STUTTER
deriving DecidableEq, Repr

/-- The alert-type strings passed to `updateSignalLogic` and `logEvent`. -/
inductive AlertType where
  | bullBreak
  | bullRush
  | bearBreak
  | bearDump
  | trendEnd
deriving DecidableEq, Repr

/-- Labels written to the `alertLog` ring (the `type` strings of `logEvent`). -/
inductive LogLabel where
  | evBullBreak
  | evBullRush
  | evBearBreak
  | evBearDump
  | evTrendEnd
  | evBuySignal
  | evSellSignal
deriving DecidableEq, Repr

/-- Local wall-clock reading: `getWeekday()` (0 = Sunday), `getHour()`,
`getMinute()`. -/
structure Clock where
  wd : ℕ
  h : ℕ
  m : ℕ
deriving DecidableEq, Repr

/-- The engine's mutable globals (v9.9 "SYSTEM STATE" section) together with
the `Config settings` fields the engine reads.  `alertLog` models the 5-entry
`Alert` ring (label and velocity value; the formatted time string is
display-only), newest first as in the source's shift-down ring. -/
structure EngineState where
  alphaFast : ℚ
  alphaSlow : ℚ
  chopLimit : ℚ
  isMuted : Bool
  volume : ℕ
  emaFast : ℚ
  emaSlow : ℚ
  diff : ℚ
  lastPrice : ℚ
  initialized : Bool
  currentSignal : SignalState
  lastTriggerTime : ℕ
  currentPos : PositionState
  tradeEntryPrice : ℚ
  closedPnL : ℚ
  tradeCount : ℕ
  alertLog : List (LogLabel × ℚ)
  velocityHistory : List ℚ
  historyHead : ℕ
  bzState : BuzzerState
  bzTimer : ℕ
deriving DecidableEq, Repr

/-- The global initial values of the v9.9 source (SPY preset, `ver != 20`
first-boot defaults). -/
def initState : EngineState where
  alphaFast := 22/100
  alphaSlow := 10/100
  chopLimit := 10/1000
  isMuted := false
  volume := 128
  emaFast := 0
  emaSlow := 0
  diff := 0
  lastPrice := 0
  initialized := false
  currentSignal := .IDLE
  lastTriggerTime := 0
  currentPos := .POS_NONE
  tradeEntryPrice := 0
  closedPnL := 0
  tradeCount := 0
  alertLog := []
  velocityHistory := List.replicate 60 0
  historyHead := 0
  bzState := .BZ_IDLE
  bzTimer := 0

/-- The Position Tracker's observable fields: position, entry price, running
realized PnL, trade counter. -/
def tracker (s : EngineState) : PositionState × ℚ × ℚ × ℕ :=
  (s.currentPos, s.tradeEntryPrice, s.closedPnL, s.tradeCount)

/-- `void closePosition()` — realize PnL of the open position, accumulate it,
bump the trade counter, return to flat. -/
def closePosition (s : EngineState) : EngineState :=
  if s.currentPos = .POS_NONE then s
  else
    let pnl : ℚ :=
      if s.currentPos = .POS_LONG then s.lastPrice - s.tradeEntryPrice
      else if s.currentPos = .POS_SHORT then s.tradeEntryPrice - s.lastPrice
      else 0
    { s with
      closedPnL := s.closedPnL + pnl
      tradeCount := s.tradeCount + 1
      currentPos := .POS_NONE
      tradeEntryPrice := 0 }

/-- `void openLong()` — auto-close a short first, then open long at
`lastPrice`; no-op if already long. -/
def openLong (s : EngineState) : EngineState :=
  let s1 := if s.currentPos = .POS_SHORT then closePosition s else s
  if s1.currentPos = .POS_NONE then
    { s1 with currentPos := .POS_LONG, tradeEntryPrice := s1.lastPrice }
  else s1

/-- `void openShort()` — mirror of `openLong`. -/
def openShort (s : EngineState) : EngineState :=
  let s1 := if s.currentPos = .POS_LONG then closePosition s else s
  if s1.currentPos = .POS_NONE then
    { s1 with currentPos := .POS_SHORT, tradeEntryPrice := s1.lastPrice }
  else s1

/-- `void resetTrades()` — wipe the paper-trading state on symbol switch. -/
def resetTrades (s : EngineState) : EngineState :=
  { s with
    currentPos := .POS_NONE
    tradeEntryPrice := 0
    closedPnL := 0
    tradeCount := 0 }

/-- `void logEvent(type, v)` — shift the 5-entry alert ring down and write the
new entry at slot 0. -/
def logEvent (lbl : LogLabel) (v : ℚ) (s : EngineState) : EngineState :=
  { s with alertLog := ((lbl, v) :: s.alertLog).take 5 }

/-- `unsigned long getSmartInterval()` — the adaptive poll period in
seconds, a pure function of local weekday/hour/minute. -/
def getSmartInterval (c : Clock) : ℕ :=
  if c.wd = 0 ∨ c.wd = 6 then 300
  else if c.h < 8 ∨ (c.h = 8 ∧ c.m < 30) ∨ c.h ≥ 16 then 60
  else if (c.h = 9 ∧ c.m ≥ 30) ∨ c.h = 10 ∨ c.h = 15 then 2
  else if c.h = 12 then 10
  else 4

/-- `2^32`: modulus of the 32-bit `unsigned long` used by `millis()`. -/
def U32 : ℕ := 4294967296

/-- `millis() - timer` with 32-bit unsigned wraparound. -/
def elapsedMs (now timer : ℕ) : ℕ :=
  (now % U32 + U32 - timer % U32) % U32

/-- `void triggerBuySignal()` — open long, log the BUY, disarm the signal
(the speaker tones and screen alert carry no engine state). -/
def triggerBuySignal (s : EngineState) : EngineState :=
  let s1 := openLong s
  let s2 := logEvent .evBuySignal s1.diff s1
  { s2 with currentSignal := .IDLE }

/-- `void triggerSellSignal()` — mirror of `triggerBuySignal`. -/
def triggerSellSignal (s : EngineState) : EngineState :=
  let s1 := openShort s
  let s2 := logEvent .evSellSignal s1.diff s1
  { s2 with currentSignal := .IDLE }

/-- `void updateSignalLogic(float currentMomentum, const char* alertType)`
(v9.9): TREND END closes any open position and clears the signal state;
a BREAK arms TRIGGERED; a RUSH/DUMP inside the dynamic window
`getSmartInterval()*1000*2 + 2000` ms confirms and disarms; an expired
window disarms without firing. -/
def updateSignalLogic (clk : Clock) (now : ℕ) (currentMomentum : ℚ)
    (alertType : AlertType) (s : EngineState) : EngineState :=
  if alertType = .trendEnd then
    let s1 :=
      if s.currentPos ≠ .POS_NONE then
        { closePosition s with bzState := .BZ_BEAR, bzTimer := now }
      else if clk.h = 12 ∨ (clk.h = 13 ∧ clk.m ≤ 30) then
        { s with bzState := .BZ_BEAR, bzTimer := now }
      else s
    { s1 with currentSignal := .IDLE }
  else
    let s1 :=
      if alertType = .bullBreak ∨ alertType = .bearBreak then
        { s with currentSignal := .TRIGGERED, lastTriggerTime := now }
      else s
    let dynamicWindow := getSmartInterval clk * 1000 * 2 + 2000
    let s2 :=
      if s1.currentSignal = .TRIGGERED ∧ elapsedMs now s1.lastTriggerTime ≤ dynamicWindow then
        if alertType = .bullRush then
          { triggerBuySignal s1 with currentSignal := .IDLE }
        else if alertType = .bearDump then
          { triggerSellSignal s1 with currentSignal := .IDLE }
        else s1
      else s1
    if s2.currentSignal = .TRIGGERED ∧ elapsedMs now s2.lastTriggerTime > dynamicWindow then
      { s2 with currentSignal := .IDLE }
    else s2

/-- The v9.9 alert-detection block of `processPrice` as a pure classifier of
(previous velocity, new velocity) against the chop limit; `6/5` is the
`1.20f` acceleration factor. -/
def classifyEvent (chop prevDiff d : ℚ) : Option AlertType :=
  if |d| > chop then
    if d > 0 then
      if prevDiff ≤ chop then some .bullBreak
      else if d > prevDiff * (6/5) then some .bullRush
      else none
    else
      if prevDiff ≥ -chop then some .bearBreak
      else if d < prevDiff * (6/5) then some .bearDump
      else none
  else if |prevDiff| > chop then some .trendEnd
  else none

/-- `void processPrice(float p)` (v9.9): seed both EMAs on the first sample,
otherwise update the EMAs, derive the percentage velocity `diff`, write the
60-slot velocity ring, and fire at most one classifier event (buzzer state,
alert log, `updateSignalLogic`).  Drawing calls carry no engine state. -/
def processPrice (clk : Clock) (now : ℕ) (p : ℚ) (s0 : EngineState) : EngineState :=
  let s := { s0 with lastPrice := p }
  if s.initialized = false then
    { s with emaFast := p, emaSlow := p, diff := 0, initialized := true }
  else
    let prevDiff := s.diff
    let emaFast := p * s.alphaFast + s.emaFast * (1 - s.alphaFast)
    let emaSlow := p * s.alphaSlow + s.emaSlow * (1 - s.alphaSlow)
    let d := (emaFast - emaSlow) / p * 100
    let s1 := { s with
      emaFast := emaFast
      emaSlow := emaSlow
      diff := d
      velocityHistory := s.velocityHistory.set s.historyHead d
      historyHead := (s.historyHead + 1) % 60 }
    match classifyEvent s1.chopLimit prevDiff d with
    | some .bullBreak =>
        updateSignalLogic clk now d .bullBreak
          (logEvent .evBullBreak d { s1 with bzState := .BZ_BULL, bzTimer := now })
    | some .bullRush =>
        updateSignalLogic clk now d .bullRush
          (logEvent .evBullRush d { s1 with bzState := .BZ_STUTTER, bzTimer := now })
    | some .bearBreak =>
        updateSignalLogic clk now d .bearBreak
          (logEvent .evBearBreak d { s1 with bzState := .BZ_BEAR, bzTimer := now })
    | some .bearDump =>
        updateSignalLogic clk now d .bearDump
          (logEvent .evBearDump d { s1 with bzState := .BZ_STUTTER, bzTimer := now })
    | some .trendEnd =>
        updateSignalLogic clk now d .trendEnd
          (logEvent .evTrendEnd d { s1 with bzState := .BZ_BULL, bzTimer := now })
    | none => s1

/-- Outcome of one `fetchQuote()` cycle as seen by the engine: WiFi down,
non-200 HTTP status, JSON deserialization error, or a parsed quote value. -/
inductive FetchOutcome where
  | notConnected
  | httpError (code : ℤ)
  | parseError
  | quote (p : ℚ)
deriving DecidableEq, Repr

/-- `r` is a fetch cycle the engine must discard: any failure, or a quote
that is not strictly positive. -/
def isDiscardedOutcome : FetchOutcome → Bool
  | .quote p => decide (p ≤ 0)
  | _ => true

/-- `void fetchQuote()` — only a 200 response that deserializes to a strictly
positive price reaches `processPrice`; every other outcome leaves the engine
untouched. -/
def fetchQuote (clk : Clock) (now : ℕ) (r : FetchOutcome) (s : EngineState) :
    EngineState :=
  match r with
  | .notConnected => s
  | .httpError _ => s
  | .parseError => s
  | .quote p => if p > 0 then processPrice clk now p s else s

/-- `const int DUR_BULLISH = 200;`. -/
def DUR_BULLISH : ℕ := 200

/-- `const int DUR_BEARISH = 1000;`. -/
def DUR_BEARISH : ℕ := 1000

/-- A speaker command issued by the tone sequencer. -/
inductive SpeakerCmd where
  | tone (freq durMs : ℕ)
  | stop
deriving DecidableEq, Repr

/-- `void updateBuzzer()` (v9.9) — returns the successor state together with
the list of speaker commands issued this tick.  The source checks
`settings.isMuted` once at entry and returns immediately when muted. -/
def updateBuzzer (now : ℕ) (s : EngineState) : EngineState × List SpeakerCmd :=
  if s.isMuted = true ∨ s.bzState = .BZ_IDLE then (s, [])
  else
    let el := elapsedMs now s.bzTimer
    match s.bzState with
    | .BZ_BULL =>
        ({ s with bzState := if el ≥ DUR_BULLISH then .BZ_IDLE else s.bzState },
         if el = 0 ∨ el < 5 then [.tone 1000 DUR_BULLISH] else [])
    | .BZ_BEAR =>
        ({ s with bzState := if el ≥ DUR_BEARISH then .BZ_IDLE else s.bzState },
         if el = 0 ∨ el < 5 then [.tone 500 DUR_BEARISH] else [])
    | .BZ_STUTTER =>
        if el < 80 then (s, [.tone 1100 80])
        else if el < 160 then (s, [.stop])
        else if el < 240 then (s, [.tone 1100 80])
        else if el < 320 then (s, [.stop])
        else if el < 400 then (s, [.tone 1100 80])
        else ({ s with bzState := .BZ_IDLE }, [])
    | .BZ_IDLE => (s, [])

/-- One chop-limit mutation: `handleKeyboard` key `+`/`=` (add 0.001),
key `-` (subtract 0.001 only while above 0.002), or a `chop=` web request
(accepted only when the parsed value is strictly positive). -/
inductive ChopOp where
  | keyInc
  | keyDec
  | webSet (nc : ℚ)
deriving DecidableEq, Repr

/-- Apply one chop-limit mutation to the current `settings.chopLimit`. -/
def applyChopOp (c : ℚ) : ChopOp → ℚ
  | .keyInc => c + 1/1000
  | .keyDec => if c > 2/1000 then c - 1/1000 else c
  | .webSet nc => if nc > 0 then nc else c

/-- One Position Tracker call, for reasoning about call sequences. -/
inductive TrackerOp where
  | opLong
  | opShort
  | opClose
deriving DecidableEq, Repr

/-- Run a sequence of Position Tracker calls. -/
def applyTrackerOps (ops : List TrackerOp) (s : EngineState) : EngineState :=
  ops.foldl (fun st op =>
    match op with
    | .opLong => openLong st
    | .opShort => openShort st
    | .opClose => closePosition st) s

/-- With no wraparound pending (`timer ≤ now < 2^32`), elapsed time is plain
subtraction. -/
theorem elapsedMs_of_le (now timer : ℕ) (h1 : timer ≤ now) (h2 : now < U32) :
    elapsedMs now timer = now - timer := by
  have ht : timer % U32 = timer := Nat.mod_eq_of_lt (lt_of_le_of_lt h1 h2)
  have hn : now % U32 = now := Nat.mod_eq_of_lt h2
  unfold elapsedMs
  rw [ht, hn]
  have hrw : now + U32 - timer = (now - timer) + U32 := by omega
  rw [hrw, Nat.add_mod_right]
  exact Nat.mod_eq_of_lt (by omega)

/-- A timer read at the very instant it was set shows zero elapsed time. -/
theorem elapsedMs_self (now : ℕ) : elapsedMs now now = 0 := by
  unfold elapsedMs
  have hrw : now % U32 + U32 - now % U32 = U32 := by omega
  rw [hrw, Nat.mod_self]

/-- C2 counterexample: at Sunday 03:00 local time — far outside the claimed
08:00–16:00 Monday–Friday policy window — a BULL BREAK still drives the
signal state to TRIGGERED from the initial IDLE state, so the claimed
market-hours gate does not exist in `updateSignalLogic`. -/
theorem claim_C2_counterexample :
    (updateSignalLogic ⟨0, 3, 0⟩ 1000 (5/100) .bullBreak initState).currentSignal
      = .TRIGGERED := by decide

/-- C2 amended: a BULL BREAK or BEAR BREAK event always sets
`currentSignal = TRIGGERED` and records `lastTriggerTime = now`, at every
local weekday, hour and minute — `updateSignalLogic` contains no
market-hours gate. -/
theorem claim_C2_amended (clk : Clock) (now : ℕ) (mom : ℚ) (s : EngineState) :
    ((updateSignalLogic clk now mom .bullBreak s).currentSignal = .TRIGGERED
      ∧ (updateSignalLogic clk now mom .bullBreak s).lastTriggerTime = now)
    ∧ ((updateSignalLogic clk now mom .bearBreak s).currentSignal = .TRIGGERED
      ∧ (updateSignalLogic clk now mom .bearBreak s).lastTriggerTime = now) := by
  have hz := elapsedMs_self now
  constructor <;> constructor <;>
    simp [updateSignalLogic, hz]

/-- C3: a TREND END event closes any open position through `closePosition`
(the Position Tracker fields of the result are exactly those of
`closePosition`, whatever the current signal state), leaves the result flat,
and forces the signal state to IDLE whether or not a position was open. -/
theorem claim_C3 (clk : Clock) (now : ℕ) (mom : ℚ) (s : EngineState) :
    (updateSignalLogic clk now mom .trendEnd s).currentSignal = .IDLE
    ∧ tracker (updateSignalLogic clk now mom .trendEnd s)
        = tracker (closePosition s)
    ∧ (updateSignalLogic clk now mom .trendEnd s).currentPos = .POS_NONE := by
  refine ⟨?_, ?_, ?_⟩ <;>
  · simp only [updateSignalLogic, tracker, closePosition]
    split_ifs <;> simp_all

/-- C1: with the signal state TRIGGERED and no timer wraparound pending,
a BULL RUSH or BEAR DUMP arriving within the dynamic window
`2 * getSmartInterval + 2` seconds (`getSmartInterval()*1000*2 + 2000` ms)
confirms the trade — the Position Tracker fields become exactly those of
`openLong` (resp. `openShort`) — and the signal state returns to IDLE at
once; if the window has elapsed, the state resets to IDLE with the Position
Tracker untouched; and a RUSH or DUMP processed while IDLE changes nothing,
so a second RUSH cannot fire without a new BREAK. -/
theorem claim_C1 (clk : Clock) (now : ℕ) (mom : ℚ) (s : EngineState)
    (hT : s.currentSignal = .TRIGGERED) (hle : s.lastTriggerTime ≤ now)
    (hlt : now < U32) :
    (now - s.lastTriggerTime ≤ getSmartInterval clk * 1000 * 2 + 2000 →
       ((updateSignalLogic clk now mom .bullRush s).currentSignal = .IDLE
        ∧ tracker (updateSignalLogic clk now mom .bullRush s)
            = tracker (openLong s))
       ∧ ((updateSignalLogic clk now mom .bearDump s).currentSignal = .IDLE
        ∧ tracker (updateSignalLogic clk now mom .bearDump s)
            = tracker (openShort s)))
    ∧ (now - s.lastTriggerTime > getSmartInterval clk * 1000 * 2 + 2000 →
       ((updateSignalLogic clk now mom .bullRush s).currentSignal = .IDLE
        ∧ tracker (updateSignalLogic clk now mom .bullRush s) = tracker s)
       ∧ ((updateSignalLogic clk now mom .bearDump s).currentSignal = .IDLE
        ∧ tracker (updateSignalLogic clk now mom .bearDump s) = tracker s))
    ∧ (∀ t : EngineState, t.currentSignal = .IDLE →
       updateSignalLogic clk now mom .bullRush t = t
       ∧ updateSignalLogic clk now mom .bearDump t = t) := by
  have he : elapsedMs now s.lastTriggerTime = now - s.lastTriggerTime :=
    elapsedMs_of_le now s.lastTriggerTime hle hlt
  refine ⟨fun hw => ⟨⟨?_, ?_⟩, ⟨?_, ?_⟩⟩, fun hw => ?_, fun t ht => ?_⟩
  · simp [updateSignalLogic, he, hT, hw, triggerBuySignal, logEvent]
  · simp [updateSignalLogic, he, hT, hw, triggerBuySignal, logEvent, tracker]
  · simp [updateSignalLogic, he, hT, hw, triggerSellSignal, logEvent]
  · simp [updateSignalLogic, he, hT, hw, triggerSellSignal, logEvent, tracker]
  · have hw' : ¬(now - s.lastTriggerTime
        ≤ getSmartInterval clk * 1000 * 2 + 2000) := not_le.mpr hw
    refine ⟨⟨?_, ?_⟩, ⟨?_, ?_⟩⟩ <;>
      simp [updateSignalLogic, he, hT, hw, hw', tracker]
  · have ht' : ¬(t.currentSignal = SignalState.TRIGGERED) := by
      rw [ht]; exact fun hc => by cases hc
    constructor <;> simp [updateSignalLogic, ht']

/-- A concrete TRIGGERED state: BREAK seen at millis 1000 with SPY defaults
and last price 100. -/
def triggeredAt1000 : EngineState :=
  { initState with
    currentSignal := .TRIGGERED
    lastTriggerTime := 1000
    lastPrice := 100 }

theorem claim_C1_witness :
    (triggeredAt1000.currentSignal = .TRIGGERED
      ∧ triggeredAt1000.lastTriggerTime ≤ 5000 ∧ 5000 < U32
      ∧ 5000 - triggeredAt1000.lastTriggerTime
          ≤ getSmartInterval ⟨1, 11, 0⟩ * 1000 * 2 + 2000)
    ∧ ((updateSignalLogic ⟨1, 11, 0⟩ 5000 1 .bullRush triggeredAt1000).currentSignal
          = .IDLE
       ∧ tracker (updateSignalLogic ⟨1, 11, 0⟩ 5000 1 .bullRush triggeredAt1000)
          = tracker (openLong triggeredAt1000)) :=
  ⟨⟨by decide, by decide, by decide, by decide⟩,
   ((claim_C1 ⟨1, 11, 0⟩ 5000 1 triggeredAt1000 (by decide) (by decide)
      (by decide)).1 (by decide)).1⟩

/-- C4: after any sequence of Position Tracker calls at most one of
LONG/SHORT holds; `openLong` on a SHORT state first realizes
`entryPrice - lastPrice` (the short's close PnL), bumps the trade counter,
then opens LONG at the current price; `openShort` on a LONG state is the
mirror, realizing `lastPrice - entryPrice`. -/
theorem claim_C4 (s : EngineState) :
    (∀ ops : List TrackerOp,
      ¬((applyTrackerOps ops s).currentPos = .POS_LONG
        ∧ (applyTrackerOps ops s).currentPos = .POS_SHORT))
    ∧ (s.currentPos = .POS_SHORT →
        openLong s = { s with
          currentPos := .POS_LONG
          tradeEntryPrice := s.lastPrice
          closedPnL := s.closedPnL + (s.tradeEntryPrice - s.lastPrice)
          tradeCount := s.tradeCount + 1 })
    ∧ (s.currentPos = .POS_LONG →
        openShort s = { s with
          currentPos := .POS_SHORT
          tradeEntryPrice := s.lastPrice
          closedPnL := s.closedPnL + (s.lastPrice - s.tradeEntryPrice)
          tradeCount := s.tradeCount + 1 }) := by
  refine ⟨?_, fun h => ?_, fun h => ?_⟩
  · rintro ops ⟨h1, h2⟩
    rw [h1] at h2
    cases h2
  · simp [openLong, closePosition, h]
  · simp [openShort, closePosition, h]

/-- A concrete open-short state: short from 120, price now 100. -/
def shortFrom120 : EngineState :=
  { initState with
    currentPos := .POS_SHORT
    tradeEntryPrice := 120
    lastPrice := 100 }

theorem claim_C4_witness :
    shortFrom120.currentPos = .POS_SHORT
    ∧ openLong shortFrom120
      = { shortFrom120 with
          currentPos := .POS_LONG
          tradeEntryPrice := 100
          closedPnL := 20
          tradeCount := 1 } := by
  have h := (claim_C4 shortFrom120).2.1 (by decide)
  refine ⟨by decide, ?_⟩
  rw [h]
  simp only [shortFrom120, initState]
  norm_num

/-- The per-trade record the spec describes (the source defines no such
structure; only the `Alert` ring exists). -/
structure TradeRecord where
  entryTime : ℕ
  exitTime : ℕ
  direction : PositionState
  entryPrice : ℚ
  exitPrice : ℚ
  realizedPnL : ℚ
deriving DecidableEq, Repr

/-- The close operation as the spec words it, over a state extended with a
bounded trade-history ring of capacity 5: realize PnL, accumulate, bump the
counter, push a `TradeRecord` (oldest evicted past 5), return to flat.
Named `...Spec` because it follows the spec's words, for comparison with the
source's `closePosition`. -/
def closePositionSpec (entryT exitT : ℕ) (s : EngineState)
    (hist : List TradeRecord) : EngineState × List TradeRecord :=
  if s.currentPos = .POS_NONE then (s, hist)
  else
    let pnl : ℚ :=
      if s.currentPos = .POS_LONG then s.lastPrice - s.tradeEntryPrice
      else s.tradeEntryPrice - s.lastPrice
    ({ s with
        closedPnL := s.closedPnL + pnl
        tradeCount := s.tradeCount + 1
        currentPos := .POS_NONE
        tradeEntryPrice := 0 },
     (⟨entryT, exitT, s.currentPos, s.tradeEntryPrice, s.lastPrice, pnl⟩
        :: hist).take 5)

/-- The source's `closePosition` lifted to the history-extended state: the
v9.9 source stores no per-trade record anywhere (its only ring buffers are
the `Alert` log and the velocity history), so any would-be trade-history
store is carried through unchanged. -/
def closePositionLifted (s : EngineState) (hist : List TradeRecord) :
    EngineState × List TradeRecord :=
  (closePosition s, hist)

/-- C5 counterexample: closing an open short at a concrete state leaves the
trade history empty under the source's close, while the close the claim
describes would have pushed one `TradeRecord`; the source maintains no trade
history at all. -/
theorem claim_C5_counterexample :
    (closePositionLifted shortFrom120 []).2.length = 0
    ∧ (closePositionSpec 3 5 shortFrom120 []).2.length = 1 := by
  constructor
  · rfl
  · decide

/-- C5 amended: `closePosition` on an open position realizes
`lastPrice - entryPrice` for LONG (`entryPrice - lastPrice` for SHORT), adds
it to the running total, increments the trade counter by exactly one and
returns the position to FLAT (entry price zeroed) — but pushes no
`TradeRecord`: the source keeps no per-trade history, so the history
component of the extended state is unchanged. -/
theorem claim_C5_amended (s : EngineState) (hist : List TradeRecord)
    (h : s.currentPos ≠ .POS_NONE) :
    closePosition s
      = { s with
          closedPnL := s.closedPnL +
            (if s.currentPos = .POS_LONG then s.lastPrice - s.tradeEntryPrice
             else s.tradeEntryPrice - s.lastPrice)
          tradeCount := s.tradeCount + 1
          currentPos := .POS_NONE
          tradeEntryPrice := 0 }
    ∧ (closePositionLifted s hist).2 = hist := by
  refine ⟨?_, rfl⟩
  cases hp : s.currentPos with
  | POS_NONE => exact absurd hp h
  | POS_LONG => simp [closePosition, hp]
  | POS_SHORT => simp [closePosition, hp]

theorem claim_C5_witness :
    shortFrom120.currentPos ≠ .POS_NONE
    ∧ closePosition shortFrom120
      = { shortFrom120 with
          closedPnL := 20
          tradeCount := 1
          currentPos := .POS_NONE
          tradeEntryPrice := 0 }
    ∧ (closePositionLifted shortFrom120 []).2 = [] := by
  have h := claim_C5_amended shortFrom120 [] (by decide)
  refine ⟨by decide, ?_, h.2⟩
  rw [h.1]
  simp only [shortFrom120, initState]
  norm_num
  decide

/-- The Sampling-Interval Policy exactly as the claim words it: 60 seconds
outside an 08:00–16:00 weekday window.  Named `...Claim` because it follows
the claim's words, for comparison with the source's `getSmartInterval`. -/
def smartIntervalClaim (c : Clock) : ℕ :=
  if c.wd = 0 ∨ c.wd = 6 then 300
  else if c.h < 8 ∨ c.h ≥ 16 then 60
  else if (c.h = 9 ∧ c.m ≥ 30) ∨ c.h = 10 ∨ c.h = 15 then 2
  else if c.h = 12 then 10
  else 4

/-- The Sampling-Interval Policy with the off-hours boundary amended to
08:30, phrased over minutes-since-midnight (510 = 08:30, 960 = 16:00,
570–600 = 09:30–10:00). -/
def smartIntervalAmendedSpec (c : Clock) : ℕ :=
  let mins := c.h * 60 + c.m
  if c.wd = 0 ∨ c.wd = 6 then 300
  else if mins < 510 ∨ mins ≥ 960 then 60
  else if (570 ≤ mins ∧ mins < 600) ∨ c.h = 10 ∨ c.h = 15 then 2
  else if c.h = 12 then 10
  else 4

/-- C6 counterexample: on a Monday at 08:00 the source returns 60 seconds,
while the claimed policy (off-hours only outside 08:00–16:00) would return
4 seconds — the source's off-hours window extends to 08:30. -/
theorem claim_C6_counterexample :
    getSmartInterval ⟨1, 8, 0⟩ = 60 ∧ smartIntervalClaim ⟨1, 8, 0⟩ = 4 := by
  decide

/-- C6 amended: for every weekday/hour and real minute value (`m < 60`), the
source's interval is exactly: 300 s on weekend days; 60 s outside the
08:30–16:00 weekday window; 2 s within 09:30–10:00, the 10:00 hour or the
15:00 hour; 10 s within the 12:00 hour; 4 s otherwise. -/
theorem claim_C6_amended (wd h m : ℕ) (hm : m < 60) :
    getSmartInterval ⟨wd, h, m⟩ = smartIntervalAmendedSpec ⟨wd, h, m⟩ := by
  simp only [getSmartInterval, smartIntervalAmendedSpec]
  split_ifs <;> omega

theorem claim_C6_witness :
    (0 : ℕ) < 60
    ∧ getSmartInterval ⟨1, 8, 0⟩ = smartIntervalAmendedSpec ⟨1, 8, 0⟩
    ∧ getSmartInterval ⟨1, 8, 0⟩ = 60 :=
  ⟨by decide, claim_C6_amended 1 8 0 (by decide), by decide⟩

/-- C7 counterexample: with a BULL tone in progress (started at millis 0)
and 300 ms elapsed, the muted run leaves `bzState = BZ_BULL` while the
otherwise-identical unmuted run completes to `BZ_IDLE` — mute changes the
ToneState transitions, not just the emission. -/
theorem claim_C7_counterexample :
    (updateBuzzer 300
        { initState with bzState := .BZ_BULL, isMuted := true }).1.bzState
      = .BZ_BULL
    ∧ (updateBuzzer 300
        { initState with bzState := .BZ_BULL, isMuted := false }).1.bzState
      = .BZ_IDLE := by
  decide

/-- C7 amended: when the mute flag is set, `updateBuzzer` returns
immediately — it emits nothing and does not advance the ToneState machine at
all, so an in-progress sequence is frozen (not completed silently) until
unmuted. -/
theorem claim_C7_amended (now : ℕ) (s : EngineState) (h : s.isMuted = true) :
    updateBuzzer now s = (s, []) := by
  simp [updateBuzzer, h]

theorem claim_C7_witness :
    ({ initState with bzState := .BZ_BULL, isMuted := true }
        : EngineState).isMuted = true
    ∧ updateBuzzer 300 { initState with bzState := .BZ_BULL, isMuted := true }
      = ({ initState with bzState := .BZ_BULL, isMuted := true }, []) :=
  ⟨by decide, claim_C7_amended 300 _ (by decide)⟩

/-- C8: every discarded fetch cycle — WiFi down, non-200 HTTP status, JSON
parse failure, or a non-positive price — leaves the entire engine state
(EMAs, velocity, initialized flag, velocity history, alert log, signal
state, position state) exactly as it was. -/
theorem claim_C8 (clk : Clock) (now : ℕ) (r : FetchOutcome) (s : EngineState)
    (h : isDiscardedOutcome r = true) :
    fetchQuote clk now r s = s := by
  cases r with
  | notConnected => rfl
  | httpError code => rfl
  | parseError => rfl
  | quote p =>
      have hp : ¬ p > 0 := by
        simp only [isDiscardedOutcome, decide_eq_true_eq] at h
        exact not_lt.mpr h
      simp [fetchQuote, hp]

theorem claim_C8_witness :
    isDiscardedOutcome (.quote (-5)) = true
    ∧ fetchQuote ⟨1, 11, 0⟩ 0 (.quote (-5)) initState = initState :=
  ⟨by norm_num [isDiscardedOutcome],
   claim_C8 ⟨1, 11, 0⟩ 0 (.quote (-5)) initState
     (by norm_num [isDiscardedOutcome])⟩

/-- C9: starting from any strictly positive chop limit, every sequence of
chop-limit mutations (keyboard increment, keyboard decrement — which only
fires above 0.002 — and web updates — which reject non-positive values)
leaves the chop limit strictly positive. -/
theorem claim_C9 (ops : List ChopOp) (c0 : ℚ) (h : 0 < c0) :
    0 < ops.foldl applyChopOp c0 := by
  induction ops generalizing c0 with
  | nil => exact h
  | cons op rest ih =>
      refine ih _ ?_
      cases op with
      | keyInc =>
          have h1 : (0 : ℚ) < 1/1000 := by norm_num
          exact add_pos h h1
      | keyDec =>
          simp only [applyChopOp]
          split_ifs with hgt
          · have h1 : (0 : ℚ) < 1/1000 := by norm_num
            linarith
          · exact h
      | webSet nc =>
          simp only [applyChopOp]
          split_ifs with hnc
          · exact hnc
          · exact h

theorem claim_C9_witness :
    (0 : ℚ) < 1/100
    ∧ 0 < ([ChopOp.keyDec, ChopOp.webSet (5/1000),
        ChopOp.keyInc].foldl applyChopOp (1/100)) :=
  ⟨by norm_num, claim_C9 _ _ (by norm_num)⟩

/-- C10: a one-step velocity jump from below `-chopLimit` to above
`+chopLimit` is classified as BULL BREAK (never TREND END): the bullish
break branch only requires `prevDiff ≤ chopLimit`; the mirror jump is a
BEAR BREAK; and either BREAK arms the TRIGGERED state in
`updateSignalLogic`. -/
theorem claim_C10 (c prev d : ℚ) (hc : 0 < c) :
    (prev < -c → c < d → classifyEvent c prev d = some .bullBreak)
    ∧ (c < prev → d < -c → classifyEvent c prev d = some .bearBreak)
    ∧ (prev < -c → c < d → classifyEvent c prev d ≠ some .trendEnd)
    ∧ (∀ (clk : Clock) (now : ℕ) (mom : ℚ) (s : EngineState),
        (updateSignalLogic clk now mom .bullBreak s).currentSignal = .TRIGGERED
        ∧ (updateSignalLogic clk now mom .bearBreak s).currentSignal
            = .TRIGGERED) := by
  refine ⟨fun h1 h2 => ?_, fun h1 h2 => ?_, fun h1 h2 => ?_,
    fun clk now mom s => ?_⟩
  · have habs : |d| > c := by rw [abs_of_pos (by linarith)]; linarith
    simp only [classifyEvent]
    rw [if_pos habs, if_pos (by linarith : d > 0),
      if_pos (by linarith : prev ≤ c)]
  · have habs : |d| > c := by rw [abs_of_neg (by linarith)]; linarith
    simp only [classifyEvent]
    rw [if_pos habs, if_neg (by linarith : ¬ d > 0),
      if_pos (by linarith : prev ≥ -c)]
  · have habs : |d| > c := by rw [abs_of_pos (by linarith)]; linarith
    simp only [classifyEvent]
    rw [if_pos habs, if_pos (by linarith : d > 0),
      if_pos (by linarith : prev ≤ c)]
    simp
  · have hz := elapsedMs_self now
    constructor <;> simp [updateSignalLogic, hz]

theorem claim_C10_witness :
    (0 : ℚ) < 1/100
    ∧ classifyEvent (1/100) (-2/100) (2/100) = some .bullBreak :=
  ⟨by norm_num,
   (claim_C10 (1/100) (-2/100) (2/100) (by norm_num)).1
     (by norm_num) (by norm_num)⟩

end Squawk
